import Mathlib

/-!
# Verification of the QWaitCondition condition variable (qwaitcondition_unix.cpp)

Shallow embedding of `src/corelib/thread/qwaitcondition_unix.cpp`.

The condition variable keeps two `int` counters, `waiters` and `wakeups`,
protected by an internal pthread mutex.  The blocking step
(`pthread_cond_wait` / `pthread_cond_timedwait`) is modelled by an oracle: a
list of `OSStep` records, each giving the return code of one blocking call
and the value of `d->wakeups` observable once the internal mutex has been
reacquired (other threads may have changed it while this thread was
blocked).  POSIX allows the primitive to return success spuriously and to
return `ETIMEDOUT` even when a signal/broadcast raced with the deadline, so
the oracle codes are unconstrained unless a claim supplies an OS-contract
hypothesis.

Concurrency at internal-mutex granularity is modelled by a labelled
transition system `Step` over `SysState`; `parked` is ghost state counting
the threads currently inside the blocking region.
-/

/-- Qt helper `qMin` from qglobal/qminmax: `qMin(a, b)` is `(a < b) ? a : b`. -/
def qMin (a b : Int) : Int := if a < b then a else b

/-- Errno value `ETIMEDOUT` (Linux).  The source only ever compares the
return code against `0` and against `ETIMEDOUT`, so only its being nonzero
and distinguished matters. -/
def ETIMEDOUT : Int := 110

/-- One return from the OS blocking primitive inside
`QWaitConditionPrivate::wait`: `code` is the value returned by
`pthread_cond_wait` / `pthread_cond_timedwait` (or the Android relative
variant), and `wakeups` is the value of `d->wakeups` observed right after
the primitive reacquired the internal mutex (concurrent `wakeOne`/`wakeAll`
calls may have changed it while the thread was blocked). -/
structure OSStep where
  code : Int
  wakeups : Int
deriving Repr, DecidableEq

/-- Model of `QDeadlineTimer` as used by this file: either the `Forever` sentinel or
a deadline constructed from a millisecond count (`QDeadlineTimer(time)`). -/
inductive Deadline where
  | forever : Deadline
  | afterMSecs (ms : Nat) : Deadline
deriving Repr, DecidableEq

/-- Method `QDeadlineTimer::isForever()`. -/
def Deadline.isForever : Deadline → Bool
  | .forever => true
  | .afterMSecs _ => false

/-- The bookkeeping state of `QWaitConditionPrivate`: the two `int`
counters (the pthread mutex and condition handles carry no mathematical
state). -/
structure QWaitConditionPrivate where
  waiters : Int
  wakeups : Int
deriving Repr, DecidableEq

/-- The `forever { ... }` loop of `QWaitConditionPrivate::wait`:
block, and on `code == 0 && wakeups == 0` (spurious wakeup) retry; give
back the `OSStep` at which the loop breaks, or `none` when the oracle is
exhausted with the thread still blocked. -/
def waitLoop : List OSStep → Option OSStep
  | [] => none
  | s :: rest => if s.code = 0 ∧ s.wakeups = 0 then waitLoop rest else some s

/-- Method `QWaitConditionPrivate::wait(QDeadlineTimer)` after the blocking loop:
`--waiters`; if `code == 0` also `--wakeups`; unlock the internal mutex;
return `code == 0`.  The wakeups counter after the call is the observed
value from the breaking `OSStep` (the entry value may have been changed by
other threads while blocked), minus one when the wakeup is consumed.
`deadline` only selects which OS primitive blocks
(`pthread_cond_wait` for `Forever`, `wait_relative` otherwise); both are
modelled by the oracle. -/
def QWaitConditionPrivate.wait (d : QWaitConditionPrivate) (deadline : Deadline)
    (os : List OSStep) : Option (Bool × QWaitConditionPrivate) :=
  match deadline, waitLoop os with
  | _, none => none
  | _, some step =>
      some (decide (step.code = 0),
        ⟨d.waiters - 1, if step.code = 0 then step.wakeups - 1 else step.wakeups⟩)

/-- Which pthread wake primitive a wake call invoked:
`pthread_cond_signal` (wakes at most one blocked thread) or
`pthread_cond_broadcast` (wakes all blocked threads). -/
inductive WakeEvt where
  | signal : WakeEvt
  | broadcast : WakeEvt
deriving Repr, DecidableEq

/-- Method `QWaitCondition::wakeOne()`: under the internal mutex,
`d->wakeups = qMin(d->wakeups + 1, d->waiters)`, then
`pthread_cond_signal`.  Never blocks. -/
def QWaitCondition.wakeOne (d : QWaitConditionPrivate) :
    QWaitConditionPrivate × WakeEvt :=
  (⟨d.waiters, qMin (d.wakeups + 1) d.waiters⟩, WakeEvt.signal)

/-- Method `QWaitCondition::wakeAll()`: under the internal mutex,
`d->wakeups = d->waiters`, then `pthread_cond_broadcast`.  Never blocks. -/
def QWaitCondition.wakeAll (d : QWaitConditionPrivate) :
    QWaitConditionPrivate × WakeEvt :=
  (⟨d.waiters, d.waiters⟩, WakeEvt.broadcast)

/-- Operations performed on the caller-supplied lock (never on the internal
mutex): `QMutex::unlock`/`QMutex::lock`, and `QReadWriteLock::unlock`,
`lockForRead`, `lockForWrite`. -/
inductive LockEvent where
  | mUnlock : LockEvent
  | mLock : LockEvent
  | rwUnlock : LockEvent
  | rwLockForRead : LockEvent
  | rwLockForWrite : LockEvent
deriving Repr, DecidableEq

/-- Result of a public `wait` call: the returned bool, the counters on
return, the operations performed on the caller-supplied lock in order, and
whether a `qWarning` usage warning was emitted. -/
structure WaitOutcome where
  returnValue : Bool
  d : QWaitConditionPrivate
  events : List LockEvent
  warned : Bool
deriving Repr, DecidableEq

/-- Method `QWaitCondition::wait(QMutex *mutex, QDeadlineTimer deadline)`:
null mutex returns `false` at once; otherwise `++d->waiters`,
`mutex->unlock()`, the private blocking wait, then `mutex->lock()` on
every exit path.  `none` means the thread is still blocked (oracle
exhausted). -/
def QWaitCondition.waitMutex (mutex : Option Unit) (d : QWaitConditionPrivate)
    (deadline : Deadline) (os : List OSStep) : Option WaitOutcome :=
  match mutex with
  | none => some ⟨false, d, [], false⟩
  | some _ =>
      match QWaitConditionPrivate.wait ⟨d.waiters + 1, d.wakeups⟩ deadline os with
      | none => none
      | some (rv, d1) => some ⟨rv, d1, [LockEvent.mUnlock, LockEvent.mLock], false⟩

/-- The result of `QReadWriteLock::stateForWaitCondition()`. -/
inductive QReadWriteLockState where
  | Unlocked : QReadWriteLockState
  | LockedForRead : QReadWriteLockState
  | LockedForWrite : QReadWriteLockState
  | RecursivelyLocked : QReadWriteLockState
deriving Repr, DecidableEq

/-- Method `QWaitCondition::wait(QReadWriteLock *readWriteLock, QDeadlineTimer)`:
null lock, `Unlocked`, or `RecursivelyLocked` (with a `qWarning`) return
`false` at once; otherwise `++d->waiters`, `readWriteLock->unlock()`, the
private blocking wait, then `lockForWrite()` when the remembered state was
`LockedForWrite`, else `lockForRead()`. -/
def QWaitCondition.waitRW (readWriteLock : Option QReadWriteLockState)
    (d : QWaitConditionPrivate) (deadline : Deadline) (os : List OSStep) :
    Option WaitOutcome :=
  match readWriteLock with
  | none => some ⟨false, d, [], false⟩
  | some previousState =>
      if previousState = QReadWriteLockState.Unlocked then
        some ⟨false, d, [], false⟩
      else if previousState = QReadWriteLockState.RecursivelyLocked then
        some ⟨false, d, [], true⟩
      else
        match QWaitConditionPrivate.wait ⟨d.waiters + 1, d.wakeups⟩ deadline os with
        | none => none
        | some (rv, d1) =>
            some ⟨rv, d1,
              [LockEvent.rwUnlock,
               if previousState = QReadWriteLockState.LockedForWrite then
                 LockEvent.rwLockForWrite
               else LockEvent.rwLockForRead], false⟩

/-- Value of `std::numeric_limits<unsigned long>::max()` on an LP64 target. -/
def ULONG_MAX : Nat := 2 ^ 64 - 1

/-- Overload `QWaitCondition::wait(QMutex *mutex, unsigned long time)`: the maximum
`unsigned long` is the unbounded-wait sentinel (`QDeadlineTimer::Forever`),
any other value is `QDeadlineTimer(time)` milliseconds. -/
def QWaitCondition.waitMutexMS (mutex : Option Unit) (d : QWaitConditionPrivate)
    (time : Nat) (os : List OSStep) : Option WaitOutcome :=
  if time = ULONG_MAX then
    QWaitCondition.waitMutex mutex d Deadline.forever os
  else
    QWaitCondition.waitMutex mutex d (Deadline.afterMSecs time) os

/-- Overload `QWaitCondition::wait(QReadWriteLock *readWriteLock, unsigned long
time)`: same millisecond-to-deadline dispatch as the mutex variant. -/
def QWaitCondition.waitRWMS (readWriteLock : Option QReadWriteLockState)
    (d : QWaitConditionPrivate) (time : Nat) (os : List OSStep) :
    Option WaitOutcome :=
  if time = ULONG_MAX then
    QWaitCondition.waitRW readWriteLock d Deadline.forever os
  else
    QWaitCondition.waitRW readWriteLock d (Deadline.afterMSecs time) os

/-!
## Transition system

Interleavings of the mutex-protected critical sections, for reachability
claims.  `parked` is ghost state: the number of threads currently between
`++d->waiters` and `--d->waiters` (i.e. inside the blocking region).
-/

/-- Global state for the interleaving model: the two counters of
`QWaitConditionPrivate` plus the ghost count of parked threads. -/
structure SysState where
  waiters : Int
  wakeups : Int
  parked : Nat
deriving Repr, DecidableEq

/-- Labels for the transitions: which public operation (or which phase of a
`wait`) performed the critical section; `exitL rv` is the exit phase of a
wait that is about to return `rv`. -/
inductive StepLabel where
  | wakeOneL : StepLabel
  | wakeAllL : StepLabel
  | enterL : StepLabel
  | exitL (rv : Bool) : StepLabel
deriving Repr, DecidableEq

/-- One internal-mutex-protected critical section of the source:
  * `wakeOne`: `wakeups = qMin(wakeups + 1, waiters)` (plus a signal);
  * `wakeAll`: `wakeups = waiters` (plus a broadcast);
  * `enter`: the entry phase of a `wait` that passed its precondition
    checks: `++waiters`, release the caller lock, suspend (the suspend
    atomically releases the internal mutex);
  * `exitSuccess`: a parked thread whose blocking call returned `0`; the
    loop breaks with `code == 0` only when `wakeups != 0`, then
    `--waiters; --wakeups`; the wait returns `true`;
  * `exitTimeout`: a parked thread whose blocking call returned nonzero
    (`ETIMEDOUT` or another error); `--waiters` only; the wait returns
    `false`.  POSIX permits this even when a wakeup is pending. -/
inductive Step : SysState → StepLabel → SysState → Prop where
  | wakeOne (s : SysState) :
      Step s StepLabel.wakeOneL ⟨s.waiters, qMin (s.wakeups + 1) s.waiters, s.parked⟩
  | wakeAll (s : SysState) :
      Step s StepLabel.wakeAllL ⟨s.waiters, s.waiters, s.parked⟩
  | enter (s : SysState) :
      Step s StepLabel.enterL ⟨s.waiters + 1, s.wakeups, s.parked + 1⟩
  | exitSuccess (s : SysState) (hp : 1 ≤ s.parked) (hw : s.wakeups ≠ 0) :
      Step s (StepLabel.exitL true) ⟨s.waiters - 1, s.wakeups - 1, s.parked - 1⟩
  | exitTimeout (s : SysState) (hp : 1 ≤ s.parked) :
      Step s (StepLabel.exitL false) ⟨s.waiters - 1, s.wakeups, s.parked - 1⟩

/-- Some transition, any label. -/
def StepAny (s t : SysState) : Prop := ∃ l, Step s l t

/-- The constructed state: `d->waiters = d->wakeups = 0`, no thread
parked. -/
def initState : SysState := ⟨0, 0, 0⟩

/-- States reachable from the constructed state by interleaved critical
sections. -/
def Reachable (s : SysState) : Prop :=
  Relation.ReflTransGen StepAny initState s

/-- Every single transition preserves the counter invariant
`0 ≤ wakeups` together with `waiters = parked`. -/
theorem step_inv {s t : SysState} {l : StepLabel} (st : Step s l t)
    (h1 : 0 ≤ s.wakeups) (h2 : s.waiters = (s.parked : Int)) :
    0 ≤ t.wakeups ∧ t.waiters = (t.parked : Int) := by
  cases st with
  | wakeOne =>
      refine ⟨?_, h2⟩
      show 0 ≤ qMin (s.wakeups + 1) s.waiters
      unfold qMin
      split <;> omega
  | wakeAll =>
      refine ⟨?_, h2⟩
      show 0 ≤ s.waiters
      omega
  | enter =>
      refine ⟨h1, ?_⟩
      show s.waiters + 1 = ((s.parked + 1 : Nat) : Int)
      push_cast
      omega
  | exitSuccess hp hw =>
      refine ⟨?_, ?_⟩
      · show 0 ≤ s.wakeups - 1
        omega
      · show s.waiters - 1 = ((s.parked - 1 : Nat) : Int)
        omega
  | exitTimeout hp =>
      refine ⟨h1, ?_⟩
      show s.waiters - 1 = ((s.parked - 1 : Nat) : Int)
      omega

/-- Reachability invariant: both counters are nonnegative and `waiters`
counts exactly the parked threads. -/
theorem reachable_inv (s : SysState) (h : Reachable s) :
    0 ≤ s.wakeups ∧ s.waiters = (s.parked : Int) := by
  induction h with
  | refl => simp [initState]
  | tail _ hstep ih =>
      obtain ⟨l, st⟩ := hstep
      exact step_inv st ih.1 ih.2

/-!
## Helper lemmas about the blocking loop
-/

/-- When the loop breaks at some oracle entry, that entry is in the oracle
and is not a spurious wakeup (not both `code = 0` and `wakeups = 0`). -/
theorem waitLoop_exit {os : List OSStep} {step : OSStep}
    (h : waitLoop os = some step) :
    ¬(step.code = 0 ∧ step.wakeups = 0) ∧ step ∈ os := by
  induction os with
  | nil => simp [waitLoop] at h
  | cons a rest ih =>
      rw [waitLoop] at h
      by_cases hc : a.code = 0 ∧ a.wakeups = 0
      · rw [if_pos hc] at h
        obtain ⟨h1, h2⟩ := ih h
        exact ⟨h1, List.mem_cons_of_mem _ h2⟩
      · rw [if_neg hc] at h
        cases h
        exact ⟨hc, List.mem_cons_self _ _⟩

/-- If no oracle entry ever shows a pending wakeup, a breaking entry has a
nonzero return code (the wait cannot succeed). -/
theorem waitLoop_no_wakeups {os : List OSStep} {step : OSStep}
    (h0 : ∀ x ∈ os, x.wakeups = 0) (h : waitLoop os = some step) :
    step.code ≠ 0 := by
  obtain ⟨h1, h2⟩ := waitLoop_exit h
  intro hc
  exact h1 ⟨hc, h0 step h2⟩

/-- Unfolding of the private wait at a breaking oracle entry. -/
theorem QWaitConditionPrivate.wait_eq (d : QWaitConditionPrivate)
    (deadline : Deadline) {os : List OSStep} {step : OSStep}
    (h : waitLoop os = some step) :
    QWaitConditionPrivate.wait d deadline os =
      some (decide (step.code = 0),
        ⟨d.waiters - 1,
         if step.code = 0 then step.wakeups - 1 else step.wakeups⟩) := by
  cases deadline <;> simp [QWaitConditionPrivate.wait, h]

/-- Unfolding of the private wait when the oracle is exhausted. -/
theorem QWaitConditionPrivate.wait_eq_none (d : QWaitConditionPrivate)
    (deadline : Deadline) {os : List OSStep}
    (h : waitLoop os = none) :
    QWaitConditionPrivate.wait d deadline os = none := by
  cases deadline <;> simp [QWaitConditionPrivate.wait, h]

/-!
## Claims
-/

/-- C2: the blocking loop retries transparently on a spurious OS success
(`code = 0` with `wakeups = 0`); it hands a success back only when a real
wakeup is available (`code = 0` implies the observed `wakeups` is nonzero);
the private wait returns `true` exactly when the breaking code is `0`, in
which case one wakeup is consumed (observed `wakeups` decremented),
otherwise `wakeups` is untouched; and when the OS primitive behaves per its
contract (every return code is success or `ETIMEDOUT`), the loop returns to
the caller only with a consumable wakeup or a truly elapsed deadline. -/
theorem C2_spurious_retry_and_result :
    (∀ (s : OSStep) (rest : List OSStep), s.code = 0 → s.wakeups = 0 →
        waitLoop (s :: rest) = waitLoop rest) ∧
    (∀ (os : List OSStep) (step : OSStep), waitLoop os = some step →
        step.code = 0 → step.wakeups ≠ 0) ∧
    (∀ (d : QWaitConditionPrivate) (deadline : Deadline) (os : List OSStep)
        (rv : Bool) (d1 : QWaitConditionPrivate),
        QWaitConditionPrivate.wait d deadline os = some (rv, d1) →
        ∃ step, waitLoop os = some step ∧
          (rv = true ↔ step.code = 0) ∧
          (rv = true → d1.wakeups = step.wakeups - 1) ∧
          (rv = false → d1.wakeups = step.wakeups)) ∧
    (∀ (os : List OSStep) (step : OSStep),
        (∀ x ∈ os, x.code = 0 ∨ x.code = ETIMEDOUT) →
        waitLoop os = some step →
        (step.code = 0 ∧ step.wakeups ≠ 0) ∨ step.code = ETIMEDOUT) := by
  refine ⟨?_, ?_, ?_, ?_⟩
  · intro s rest h1 h2
    rw [waitLoop, if_pos ⟨h1, h2⟩]
  · intro os step h hc hw
    exact (waitLoop_exit h).1 ⟨hc, hw⟩
  · intro d deadline os rv d1 h
    cases hL : waitLoop os with
    | none => rw [QWaitConditionPrivate.wait_eq_none d deadline hL] at h; cases h
    | some step =>
        rw [QWaitConditionPrivate.wait_eq d deadline hL] at h
        injection h with h
        injection h with hrv hd1
        refine ⟨step, rfl, ?_, ?_, ?_⟩
        · rw [← hrv]; simp
        · intro ht
          rw [← hd1]
          have hc : step.code = 0 := by rw [← hrv] at ht; simpa using ht
          simp [hc]
        · intro hf
          rw [← hd1]
          have hc : ¬step.code = 0 := by
            rw [← hrv] at hf; simpa using hf
          simp [hc]
  · intro os step h0 h
    obtain ⟨h1, h2⟩ := waitLoop_exit h
    rcases h0 step h2 with hc | hc
    · left
      exact ⟨hc, fun hw => h1 ⟨hc, hw⟩⟩
    · right
      exact hc

/-- Witness for C2, at a one-entry oracle whose breaking step is a genuine
wakeup. -/
theorem C2_witness :
    ∃ step, waitLoop [OSStep.mk 0 1] = some step ∧
      (true = true ↔ step.code = 0) ∧
      (true = true →
        (QWaitConditionPrivate.mk 0 0).wakeups = step.wakeups - 1) ∧
      (true = false → (QWaitConditionPrivate.mk 0 0).wakeups = step.wakeups) :=
  C2_spurious_retry_and_result.2.2.1 ⟨1, 0⟩ Deadline.forever
    [OSStep.mk 0 1] true ⟨0, 0⟩ (by rfl)

/-- C4: `wakeOne()` sets `wakeups` to `qMin(wakeups + 1, waiters)` and
invokes the single-thread signal primitive (at most one blocked thread is
released); with `waiters = 0` and a nonnegative `wakeups` the counter is
clamped and stays `0`; consequently a `wakeOne` issued from the quiescent
state before any thread waits does not pre-arm a later waiter: a
subsequent wait whose oracle never observes a pending wakeup (no new wake
call) returns `false`. -/
theorem C4_wakeOne_spec :
    (∀ d : QWaitConditionPrivate,
        QWaitCondition.wakeOne d =
          (⟨d.waiters, qMin (d.wakeups + 1) d.waiters⟩, WakeEvt.signal)) ∧
    (∀ d : QWaitConditionPrivate, d.waiters = 0 → 0 ≤ d.wakeups →
        (QWaitCondition.wakeOne d).1.wakeups = 0) ∧
    (∀ (deadline : Deadline) (os : List OSStep) (r : WaitOutcome),
        (∀ x ∈ os, x.wakeups = 0) →
        QWaitCondition.waitMutex (some ())
            (QWaitCondition.wakeOne ⟨0, 0⟩).1 deadline os = some r →
        r.returnValue = false) := by
  refine ⟨fun d => rfl, ?_, ?_⟩
  · intro d h0 hnn
    show qMin (d.wakeups + 1) d.waiters = 0
    unfold qMin
    rw [h0]
    split <;> omega
  · intro deadline os r h0 h
    have h1 : (QWaitCondition.wakeOne ⟨0, 0⟩).1 = ⟨0, 0⟩ := by rfl
    rw [h1] at h
    cases hL : waitLoop os with
    | none =>
        rw [QWaitCondition.waitMutex] at h
        rw [QWaitConditionPrivate.wait_eq_none _ deadline hL] at h
        cases h
    | some step =>
        rw [QWaitCondition.waitMutex] at h
        rw [QWaitConditionPrivate.wait_eq _ deadline hL] at h
        injection h with h
        rw [← h]
        have hc : step.code ≠ 0 := waitLoop_no_wakeups h0 hL
        simp [hc]

/-- Witness for C4: a timeout-only oracle after a pre-armed `wakeOne` on
the quiescent condition variable yields `false`. -/
theorem C4_witness :
    (0 : Int) = 0 ∧
    (WaitOutcome.mk false ⟨0, 0⟩ [LockEvent.mUnlock, LockEvent.mLock]
        false).returnValue = false :=
  ⟨C4_wakeOne_spec.2.1 ⟨0, 0⟩ (by rfl) (by decide),
   C4_wakeOne_spec.2.2 (Deadline.afterMSecs 50) [OSStep.mk ETIMEDOUT 0]
     ⟨false, ⟨0, 0⟩, [LockEvent.mUnlock, LockEvent.mLock], false⟩
     (by decide) (by rfl)⟩

/-- C5: `wakeAll()` sets `wakeups` to the current `waiters`, leaves
`waiters` unchanged, and invokes the broadcast primitive that wakes all
blocked threads; it is a total function of the counters (it never
blocks). -/
theorem C5_wakeAll_spec (d : QWaitConditionPrivate) :
    (QWaitCondition.wakeAll d).1.wakeups = d.waiters ∧
    (QWaitCondition.wakeAll d).1.waiters = d.waiters ∧
    (QWaitCondition.wakeAll d).2 = WakeEvt.broadcast :=
  ⟨rfl, rfl, rfl⟩

/-- C7: waiting on a null mutex returns `false` at once, for every
deadline and every oracle (so no blocking step is consumed), with the
counters unchanged and no operation performed on any caller lock. -/
theorem C7_null_mutex (d : QWaitConditionPrivate) (deadline : Deadline)
    (os : List OSStep) :
    QWaitCondition.waitMutex none d deadline os =
      some ⟨false, d, [], false⟩ :=
  rfl

/-- C8: the read-write-lock wait returns `false` at once, for every
deadline and every oracle, with the counters unchanged and no lock
operation performed, when the lock pointer is null, when the lock reports
`Unlocked`, and when it reports `RecursivelyLocked`; only the
`RecursivelyLocked` case emits the usage warning. -/
theorem C8_rw_misuse (d : QWaitConditionPrivate) (deadline : Deadline)
    (os : List OSStep) :
    QWaitCondition.waitRW none d deadline os = some ⟨false, d, [], false⟩ ∧
    QWaitCondition.waitRW (some QReadWriteLockState.Unlocked) d deadline os =
      some ⟨false, d, [], false⟩ ∧
    QWaitCondition.waitRW (some QReadWriteLockState.RecursivelyLocked) d
        deadline os = some ⟨false, d, [], true⟩ :=
  ⟨rfl, rfl, rfl⟩

/-- C10: the millisecond overloads treat the maximum `unsigned long` as
the `Forever` sentinel and any other value as a deadline of that many
milliseconds, delegating (result included) to the deadline overload. -/
theorem C10_ms_dispatch :
    (∀ (mutex : Option Unit) (d : QWaitConditionPrivate) (os : List OSStep),
        QWaitCondition.waitMutexMS mutex d ULONG_MAX os =
          QWaitCondition.waitMutex mutex d Deadline.forever os) ∧
    (∀ (mutex : Option Unit) (d : QWaitConditionPrivate) (time : Nat)
        (os : List OSStep), time ≠ ULONG_MAX →
        QWaitCondition.waitMutexMS mutex d time os =
          QWaitCondition.waitMutex mutex d (Deadline.afterMSecs time) os) ∧
    (∀ (rw : Option QReadWriteLockState) (d : QWaitConditionPrivate)
        (os : List OSStep),
        QWaitCondition.waitRWMS rw d ULONG_MAX os =
          QWaitCondition.waitRW rw d Deadline.forever os) ∧
    (∀ (rw : Option QReadWriteLockState) (d : QWaitConditionPrivate)
        (time : Nat) (os : List OSStep), time ≠ ULONG_MAX →
        QWaitCondition.waitRWMS rw d time os =
          QWaitCondition.waitRW rw d (Deadline.afterMSecs time) os) := by
  refine ⟨?_, ?_, ?_, ?_⟩ <;> intros <;>
    simp [QWaitCondition.waitMutexMS, QWaitCondition.waitRWMS, *]

/-- Witness for C10: dispatch at the sentinel and at 50 milliseconds. -/
theorem C10_witness :
    QWaitCondition.waitMutexMS none ⟨0, 0⟩ ULONG_MAX [] =
        QWaitCondition.waitMutex none ⟨0, 0⟩ Deadline.forever [] ∧
    QWaitCondition.waitMutexMS none ⟨0, 0⟩ 50 [] =
        QWaitCondition.waitMutex none ⟨0, 0⟩ (Deadline.afterMSecs 50) [] :=
  ⟨C10_ms_dispatch.1 none ⟨0, 0⟩ [],
   C10_ms_dispatch.2.1 none ⟨0, 0⟩ 50 [] (by decide)⟩

/-- C3: on every exit of the blocking loop (success, timeout or OS error
alike, i.e. whatever `OSStep` the loop breaks at), the wait that passed
its precondition checks reacquires the caller lock as its final lock
operation: the mutex variant unlocks then relocks the mutex, and the
read-write variant unlocks then calls `lockForWrite` when the remembered
state was `LockedForWrite`, else `lockForRead`. -/
theorem C3_lock_reacquired :
    (∀ (d : QWaitConditionPrivate) (deadline : Deadline) (os : List OSStep)
        (step : OSStep), waitLoop os = some step →
        ∃ r, QWaitCondition.waitMutex (some ()) d deadline os = some r ∧
          r.events = [LockEvent.mUnlock, LockEvent.mLock]) ∧
    (∀ (d : QWaitConditionPrivate) (deadline : Deadline) (os : List OSStep)
        (step : OSStep), waitLoop os = some step →
        ∃ r, QWaitCondition.waitRW (some QReadWriteLockState.LockedForWrite)
            d deadline os = some r ∧
          r.events = [LockEvent.rwUnlock, LockEvent.rwLockForWrite]) ∧
    (∀ (d : QWaitConditionPrivate) (deadline : Deadline) (os : List OSStep)
        (step : OSStep), waitLoop os = some step →
        ∃ r, QWaitCondition.waitRW (some QReadWriteLockState.LockedForRead)
            d deadline os = some r ∧
          r.events = [LockEvent.rwUnlock, LockEvent.rwLockForRead]) := by
  refine ⟨?_, ?_, ?_⟩ <;>
    (intro d deadline os step h
     simp only [QWaitCondition.waitMutex, QWaitCondition.waitRW,
       QWaitConditionPrivate.wait_eq _ deadline h]
     simp)

/-- Witness for C3: a timed-out wait on the mutex variant still ends with
the relock of the caller mutex. -/
theorem C3_witness :
    ∃ r, QWaitCondition.waitMutex (some ()) ⟨0, 0⟩ (Deadline.afterMSecs 50)
        [OSStep.mk ETIMEDOUT 0] = some r ∧
      r.events = [LockEvent.mUnlock, LockEvent.mLock] :=
  C3_lock_reacquired.1 ⟨0, 0⟩ (Deadline.afterMSecs 50)
    [OSStep.mk ETIMEDOUT 0] ⟨ETIMEDOUT, 0⟩ (by rfl)

/-- The state with one parked waiter and one pending wakeup is reachable:
one thread enters a wait, then `wakeAll` runs. -/
theorem reachable_one_one : Reachable ⟨1, 1, 1⟩ := by
  have h1 : StepAny initState ⟨1, 0, 1⟩ := ⟨_, Step.enter initState⟩
  have h2 : StepAny ⟨1, 0, 1⟩ ⟨1, 1, 1⟩ := ⟨_, Step.wakeAll ⟨1, 0, 1⟩⟩
  exact Relation.ReflTransGen.tail
    (Relation.ReflTransGen.tail Relation.ReflTransGen.refl h1) h2

/-- C6: a completed wait decrements `waiters` by exactly one; it
decrements `wakeups` by exactly one when it returns `true` and leaves
`wakeups` unchanged when it returns `false`; and in every reachable state
the two internal assertions hold at the decrement points: `waiters > 0`
on any exit, and `wakeups > 0` on a successful exit. -/
theorem C6_wait_decrements :
    (∀ s t : SysState, Step s (StepLabel.exitL true) t →
        t.waiters = s.waiters - 1 ∧ t.wakeups = s.wakeups - 1) ∧
    (∀ s t : SysState, Step s (StepLabel.exitL false) t →
        t.waiters = s.waiters - 1 ∧ t.wakeups = s.wakeups) ∧
    (∀ s : SysState, Reachable s → ∀ (rv : Bool) (t : SysState),
        Step s (StepLabel.exitL rv) t →
        0 < s.waiters ∧ (rv = true → 0 < s.wakeups)) := by
  refine ⟨?_, ?_, ?_⟩
  · intro s t h
    cases h
    exact ⟨rfl, rfl⟩
  · intro s t h
    cases h
    exact ⟨rfl, rfl⟩
  · intro s hs rv t h
    obtain ⟨h1, h2⟩ := reachable_inv s hs
    cases h with
    | exitSuccess hp hw => exact ⟨by omega, fun _ => by omega⟩
    | exitTimeout hp => exact ⟨by omega, by simp⟩

/-- Witness for C6: the parked waiter of `reachable_one_one` consumes the
pending wakeup and exits. -/
theorem C6_witness :
    ((⟨0, 0, 0⟩ : SysState).waiters = (⟨1, 1, 1⟩ : SysState).waiters - 1 ∧
      (⟨0, 0, 0⟩ : SysState).wakeups = (⟨1, 1, 1⟩ : SysState).wakeups - 1) ∧
    (0 < (⟨1, 1, 1⟩ : SysState).waiters ∧
      (true = true → 0 < (⟨1, 1, 1⟩ : SysState).wakeups)) :=
  ⟨C6_wait_decrements.1 ⟨1, 1, 1⟩ ⟨0, 0, 0⟩
      (Step.exitSuccess ⟨1, 1, 1⟩ (by decide) (by decide)),
   C6_wait_decrements.2.2 ⟨1, 1, 1⟩ reachable_one_one true ⟨0, 0, 0⟩
      (Step.exitSuccess ⟨1, 1, 1⟩ (by decide) (by decide))⟩

/-- C1 fails as stated: from the constructed state, one thread enters a
wait, `wakeAll` records a pending wakeup, and the waiter then times out
(POSIX permits `ETIMEDOUT` even with the wakeup pending); the exit
decrements `waiters` but not `wakeups`, reaching the state
`waiters = 0, wakeups = 1`, which violates `wakeups ≤ waiters`. -/
theorem C1_counterexample :
    Reachable ⟨0, 1, 0⟩ ∧
      ¬((⟨0, 1, 0⟩ : SysState).wakeups ≤ (⟨0, 1, 0⟩ : SysState).waiters) :=
  ⟨Relation.ReflTransGen.tail reachable_one_one
      ⟨_, Step.exitTimeout ⟨1, 1, 1⟩ (by decide)⟩,
   by decide⟩

/-- C1 (amended): every reachable state satisfies `0 ≤ wakeups` and
`0 ≤ waiters` (indeed `waiters` equals the number of parked threads),
starting from the constructed state `waiters = wakeups = 0`; and
`wakeOne`/`wakeAll` each (re-)establish `wakeups ≤ waiters` in their
post-state.  The full bound `wakeups ≤ waiters` is not preserved by
`wait`: see the counterexample. -/
theorem C1_amended_invariant :
    (∀ s : SysState, Reachable s →
        0 ≤ s.wakeups ∧ 0 ≤ s.waiters ∧ s.waiters = (s.parked : Int)) ∧
    (∀ s t : SysState, Step s StepLabel.wakeOneL t →
        t.wakeups ≤ t.waiters) ∧
    (∀ s t : SysState, Step s StepLabel.wakeAllL t →
        t.wakeups ≤ t.waiters) := by
  refine ⟨?_, ?_, ?_⟩
  · intro s hs
    obtain ⟨h1, h2⟩ := reachable_inv s hs
    exact ⟨h1, by omega, h2⟩
  · intro s t h
    cases h
    show qMin (s.wakeups + 1) s.waiters ≤ s.waiters
    unfold qMin
    split <;> omega
  · intro s t h
    cases h
    show s.waiters ≤ s.waiters
    exact le_refl _

/-- Witness for C1 (amended): the constructed state, and the post-state
of a `wakeOne` from it. -/
theorem C1_witness :
    (0 ≤ initState.wakeups ∧ 0 ≤ initState.waiters ∧
      initState.waiters = (initState.parked : Int)) ∧
    (⟨0, qMin 1 0, 0⟩ : SysState).wakeups ≤
      (⟨0, qMin 1 0, 0⟩ : SysState).waiters :=
  ⟨C1_amended_invariant.1 initState Relation.ReflTransGen.refl,
   C1_amended_invariant.2.1 ⟨0, 0, 0⟩ ⟨0, qMin 1 0, 0⟩
     (Step.wakeOne ⟨0, 0, 0⟩)⟩
